import Mathlib

/-!
Shallow embedding of the chunked content-transfer core of
`src/onedrive_d/api/drives.py` (class `DriveObject`), together with the
URI construction and argument validation helpers that the claims refer to.

Python integers are embedded as `Int` (they are unbounded and the range
arithmetic of the transfer loops mixes subtraction freely).  The `requests`
status-code constants used by the source are embedded as literal `Nat`s.
The HTTP transport (`self.root.account.session`) is embedded as oracles:
a status per request together with a JSON body per request; `session.put`
with `ok_status_code` raises on a status mismatch, which the run model
expresses by aborting with `ok = false`.
-/

namespace OnedriveD

/-- `requests.codes.ok` (HTTP 200). -/
def requests_codes_ok : Nat := 200

/-- `requests.codes.created` (HTTP 201). -/
def requests_codes_created : Nat := 201

/-- `requests.codes.accepted` (HTTP 202). -/
def requests_codes_accepted : Nat := 202

/-- `requests.codes` value for HTTP 206 (ranged GET satisfied). -/
def requests_codes_http206 : Nat := 206

/-- `DriveObject.get_item_uri` (drives.py lines 137-151).
`drive_uri` and `drive_path` are the instance attributes set in `__init__`;
`item_id` / `item_path` are the optional arguments (`None` = `Option.none`). -/
def get_item_uri (drive_uri drive_path : String) (item_id item_path : Option String) :
    String :=
  match item_id, item_path with
  | some i, _ => drive_uri ++ (drive_path ++ "/items/" ++ i)
  | none, some p =>
      if p ≠ drive_path ++ "/root:" then drive_uri ++ p
      else drive_uri ++ (drive_path ++ "/root")
  | none, none => drive_uri ++ (drive_path ++ "/root")

/-- Which of the two transfer paths the dispatcher takes. -/
inductive TransferPath where
  | singleShot : TransferPath
  | chunked : TransferPath
deriving DecidableEq, Repr

/-- The size test of `DriveObject.upload_file` (drives.py lines 217-220):
`size <= max_put_size_bytes` selects `put_file`, otherwise `put_large_file`. -/
def upload_file_dispatch (max_put_size_bytes size : Int) : TransferPath :=
  if size ≤ max_put_size_bytes then .singleShot else .chunked

/-- The size test of `DriveObject.download_file` (drives.py lines 294-296):
`size <= max_get_size_bytes` selects the single `get_file_content` call,
otherwise the ranged loop. -/
def download_file_dispatch (max_get_size_bytes size : Int) : TransferPath :=
  if size ≤ max_get_size_bytes then .singleShot else .chunked

/-- The clamp at drives.py lines 250-251: `if t is None or t >= size: t = size - 1`.
(The `None` branch is unreachable: every worklist entry carries a concrete
upper bound, so the embedding keeps `t : Int`.) -/
def clampTo (size t : Int) : Int :=
  if size ≤ t then size - 1 else t

theorem clampTo_le (size t : Int) : clampTo size t ≤ t := by
  unfold clampTo; split <;> omega

/-- Termination measure for the upload worklist loop: total (clamped) span
of the pending ranges plus the number of pending entries. -/
def wlMeasure (l : List (Int × Int)) : Nat :=
  (l.map (fun p => (p.2 + 1 - p.1).toNat)).sum + l.length

theorem wlMeasure_pop (f t : Int) (rest : List (Int × Int)) :
    wlMeasure rest < wlMeasure ((f, t) :: rest) := by
  unfold wlMeasure
  simp only [List.map_cons, List.sum_cons, List.length_cons]
  omega

theorem wlMeasure_push (maxPut size f t : Int) (rest : List (Int × Int))
    (hmax : 0 < maxPut) (h : f + maxPut ≤ clampTo size t) :
    wlMeasure ((f + maxPut, clampTo size t) :: rest) < wlMeasure ((f, t) :: rest) := by
  have hle : clampTo size t ≤ t := clampTo_le size t
  unfold wlMeasure
  simp only [List.map_cons, List.sum_cons, List.length_cons]
  have : (clampTo size t + 1 - (f + maxPut)).toNat < (t + 1 - f).toNat := by omega
  omega

/-- The pure range plan of the `put_large_file` worklist loop
(drives.py lines 247-257), recording only the fragment ranges `(f, t)` that
the loop transmits, in transmission order.  The worklist starts as
`[(0, size - 1)]`; each iteration pops the front entry, clamps its upper
bound to `size - 1`, splits off `(next_cursor, t)` back onto the front when
the span exceeds `max_put_size_bytes`, and transmits `(f, t)`. -/
def putLargeLoop (maxPut size : Int) (hmax : 0 < maxPut) :
    List (Int × Int) → List (Int × Int)
  | [] => []
  | (f, t) :: rest =>
    let t1 := clampTo size t
    let nextCursor := f + maxPut
    if h : nextCursor ≤ t1 then
      (f, nextCursor - 1) :: putLargeLoop maxPut size hmax ((nextCursor, t1) :: rest)
    else
      (f, t1) :: putLargeLoop maxPut size hmax rest
termination_by l => wlMeasure l
decreasing_by
  · exact wlMeasure_push maxPut size f t rest hmax h
  · exact wlMeasure_pop f t rest

/-- The fragment ranges produced by `put_large_file` for a file of `size`
bytes: the loop started on the worklist `[(0, size - 1)]` (drives.py line 247). -/
def putLargeFragments (maxPut size : Int) (hmax : 0 < maxPut) : List (Int × Int) :=
  putLargeLoop maxPut size hmax [(0, size - 1)]

/-- The `Content-Range` header value built at drives.py lines 258-260:
`str(f) + '-' + str(t) + '/' + size_str` where `size_str = str(size)`. -/
def contentRangeValue (f t size : Int) : String :=
  toString f ++ "-" ++ toString t ++ "/" ++ toString size

/-- One fragment PUT as issued by `put_large_file`: the transmitted range,
the `Content-Range` header value, and the `ok_status_code` passed to
`session.put` (drives.py lines 258-262). -/
structure Submission where
  f : Int
  t : Int
  contentRange : String
  expectedStatus : Nat
deriving DecidableEq, Repr

/-- The submission the loop builds for fragment range `p`.  Every fragment,
the final one included, is sent with `ok_status_code=requests.codes.accepted`. -/
def mkSubmission (size : Int) (p : Int × Int) : Submission :=
  ⟨p.1, p.2, contentRangeValue p.1 p.2 size, requests_codes_accepted⟩

/-- Observable outcome of a `put_large_file` call: the fragment PUTs issued
in order, the final session value, whether the call ran to completion
(`ok = false` means `session.put` raised on a status mismatch and the
exception propagated), and the value returned to the caller. -/
structure RunResult (S I : Type) where
  submissions : List Submission
  session : S
  ok : Bool
  returned : Option I

/-- The upload phase of `put_large_file` (drives.py lines 247-265) with the
HTTP transport embedded as oracles: `respStatus i` / `respJson i` are the
status and JSON body of the `i`-th fragment PUT.  `session.put` with
`ok_status_code=requests.codes.accepted` raises unless the status is 202,
which aborts the loop; on success `current_session.update(request.json())`
replaces the session value (`upd`).  The Python function body ends without
a `return` statement, so on completion the caller receives `None`. -/
def put_large_file_loop {S J I : Type} (maxPut size : Int) (hmax : 0 < maxPut)
    (respStatus : Nat → Nat) (respJson : Nat → J) (upd : S → J → S) :
    List (Int × Int) → S → Nat → RunResult S I
  | [], s, _ => ⟨[], s, true, none⟩
  | (f, t) :: rest, s, i =>
    let t1 := clampTo size t
    let nextCursor := f + maxPut
    if h : nextCursor ≤ t1 then
      let sub := mkSubmission size (f, nextCursor - 1)
      if respStatus i = requests_codes_accepted then
        let r := put_large_file_loop maxPut size hmax respStatus respJson upd
          ((nextCursor, t1) :: rest) (upd s (respJson i)) (i + 1)
        ⟨sub :: r.submissions, r.session, r.ok, r.returned⟩
      else ⟨[sub], s, false, none⟩
    else
      let sub := mkSubmission size (f, t1)
      if respStatus i = requests_codes_accepted then
        let r := put_large_file_loop maxPut size hmax respStatus respJson upd
          rest (upd s (respJson i)) (i + 1)
        ⟨sub :: r.submissions, r.session, r.ok, r.returned⟩
      else ⟨[sub], s, false, none⟩
termination_by wl _ _ => wlMeasure wl
decreasing_by
  · exact wlMeasure_push maxPut size f t rest hmax h
  · exact wlMeasure_pop f t rest

/-- A whole `put_large_file` call: the worklist starts as
`[(0, size - 1)]` (drives.py line 247), the request counter at 0, and the
session at the value deserialized from the session-initiation response. -/
def put_large_file_run {S J I : Type} (maxPut size : Int) (hmax : 0 < maxPut)
    (respStatus : Nat → Nat) (respJson : Nat → J) (upd : S → J → S) (s0 : S) :
    RunResult S I :=
  put_large_file_loop maxPut size hmax respStatus respJson upd [(0, size - 1)] s0 0

/-- Truncation of a planned submission list by the status oracle: submissions
are issued in order until the first one whose response status is not
`accepted`, which is still issued (the PUT happens before the check) but
aborts the run. -/
def cutRun (respStatus : Nat → Nat) : List Submission → Nat → List Submission × Bool
  | [], _ => ([], true)
  | sub :: rest, i =>
    if respStatus i = requests_codes_accepted then
      let r := cutRun respStatus rest (i + 1)
      (sub :: r.1, r.2)
    else ([sub], false)

/-- The full planned submission sequence of an upload of `size` bytes. -/
def put_plan_submissions (maxPut size : Int) (hmax : 0 < maxPut) : List Submission :=
  (putLargeFragments maxPut size hmax).map (mkSubmission size)

/-- The ranged loop of `download_file` (drives.py lines 297-304) together
with the sink writes done by `get_file_content(..., file=file)`
(drives.py line 324): from cursor `t`, request `(f, t')` with
`f = t`, `t' = min(t + max_get_size_bytes - 1, size - 1)`, append the
response payload (`content (f, t')`) to the sink, and continue from
`t' + 1`.  Returns the requested ranges in request order and the final
sink contents. -/
def download_file_loop (maxGet size : Int) (hmax : 0 < maxGet)
    (content : Int × Int → List Nat) (t : Int) (sink : List Nat) :
    List (Int × Int) × List Nat :=
  if _ht : t < size then
    let f := t
    let t1 := clampTo size (t + maxGet - 1)
    let r := download_file_loop maxGet size hmax content (t1 + 1) (sink ++ content (f, t1))
    ((f, t1) :: r.1, r.2)
  else ([], sink)
termination_by (size - t).toNat
decreasing_by
  have hle : t ≤ clampTo size (t + maxGet - 1) := by
    unfold clampTo; split <;> omega
  omega

/-- `coversFrom size c l` states that the ranges of `l`, in order, exactly
tile the interval `[c, size - 1]`: each range starts where the previous one
ended plus one (no gaps, no overlaps, strictly increasing), every range is
non-empty, and the last range ends at `size - 1`.  `coversFrom size 0 l` is
the statement that `l` partitions `[0, size - 1]`. -/
def coversFrom (size : Int) : Int → List (Int × Int) → Prop
  | c, [] => c = size
  | c, (f, t) :: rest => f = c ∧ f ≤ t ∧ coversFrom size (t + 1) rest

/-- `onedrive_d.api.resources.ItemReference`, reduced to its `data` payload. -/
structure ItemReference where
  data : String
deriving DecidableEq

/-- `onedrive_d.api.facets.FileSystemInfoFacet`, reduced to its `data` payload. -/
structure FileSystemInfoFacet where
  data : String
deriving DecidableEq

/-- The `dest_reference` argument of `copy_item`: Python checks it with
`isinstance(dest_reference, resources.ItemReference)`, so the argument either
is an `ItemReference` or it is some other value. -/
inductive CopyDest where
  | ref (r : ItemReference) : CopyDest
  | notAnItemReference : CopyDest

/-- An HTTP request as issued by the session collaborator. -/
structure HttpCall where
  method : String
  uri : String
  body : List (String × String)
deriving DecidableEq

/-- `DriveObject.update_item` (drives.py lines 338-370) up to the point the
PATCH request is issued.  `Except.error m` embeds `raise ValueError(m)`;
the `HttpCall` is only produced after both validations pass, so an error
means no request was issued. -/
def update_item (drive_uri drive_path : String) (item_id item_path : Option String)
    (new_name new_description : Option String)
    (new_parent_reference : Option ItemReference)
    (new_file_system_info : Option FileSystemInfoFacet) :
    Except String HttpCall :=
  if item_id = none ∧ item_path = none then
    .error "Root is immutable. A specific item is required."
  else
    let data : List (String × String) :=
      (match new_name with | some v => [("name", v)] | none => []) ++
      (match new_description with | some v => [("description", v)] | none => []) ++
      (match new_parent_reference with | some v => [("parentReference", v.data)] | none => []) ++
      (match new_file_system_info with | some v => [("fileSystemInfo", v.data)] | none => [])
    if data = [] then .error "Nothing is to change."
    else .ok ⟨"PATCH", get_item_uri drive_uri drive_path item_id item_path, data⟩

/-- `DriveObject.copy_item` (drives.py lines 372-394) up to the point the
POST request is issued; same `Except` convention as `update_item`. -/
def copy_item (drive_uri drive_path : String) (dest_reference : CopyDest)
    (item_id item_path : Option String) (new_name : Option String) :
    Except String HttpCall :=
  match dest_reference with
  | .notAnItemReference => .error "Destination should be an ItemReference object."
  | .ref r =>
    if item_id = none ∧ item_path = none then
      .error "Source of copy must be specified."
    else
      let uri0 := get_item_uri drive_uri drive_path item_id item_path
      let uri1 := if item_path.isSome then uri0 ++ ":" else uri0
      let data := ("parentReference", r.data) ::
        (match new_name with | some v => [("name", v)] | none => [])
      .ok ⟨"POST", uri1 ++ "/action.copy", data⟩

/-! ### Step equations and worklist invariants -/

theorem putLargeLoop_nil (maxPut size : Int) (hmax : 0 < maxPut) :
    putLargeLoop maxPut size hmax [] = [] := by
  rw [putLargeLoop]

theorem putLargeLoop_cons (maxPut size : Int) (hmax : 0 < maxPut) (f t : Int)
    (rest : List (Int × Int)) :
    putLargeLoop maxPut size hmax ((f, t) :: rest) =
      if f + maxPut ≤ clampTo size t then
        (f, f + maxPut - 1) :: putLargeLoop maxPut size hmax ((f + maxPut, clampTo size t) :: rest)
      else
        (f, clampTo size t) :: putLargeLoop maxPut size hmax rest := by
  rw [putLargeLoop]
  split <;> rfl

/-- Worklist invariant of the upload loop started on a single entry
`(f, size - 1)` with `0 ≤ f < size`: the emitted ranges tile `[f, size - 1]`
exactly and every emitted range is non-empty and at most `maxPut` long. -/
theorem putLoop_covers_aux (maxPut size : Int) (hmax : 0 < maxPut) :
    ∀ n : Nat, ∀ f : Int, (size - f).toNat ≤ n → 0 ≤ f → f < size →
      coversFrom size f (putLargeLoop maxPut size hmax [(f, size - 1)]) ∧
      ∀ p ∈ putLargeLoop maxPut size hmax [(f, size - 1)],
        p.1 ≤ p.2 ∧ p.2 + 1 - p.1 ≤ maxPut := by
  intro n
  induction n with
  | zero => intro f hn h0 hf; omega
  | succ n ih =>
    intro f hn h0 hf
    have hclamp : clampTo size (size - 1) = size - 1 := by unfold clampTo; split <;> omega
    rw [putLargeLoop_cons, hclamp]
    by_cases h : f + maxPut ≤ size - 1
    · rw [if_pos h]
      have harg : f + maxPut - 1 + 1 = f + maxPut := by ring
      obtain ⟨ihc, ihb⟩ := ih (f + maxPut) (by omega) (by omega) (by omega)
      constructor
      · refine ⟨rfl, show f ≤ f + maxPut - 1 by omega, ?_⟩
        rw [harg]
        exact ihc
      · intro p hp
        rcases List.mem_cons.mp hp with hp | hp
        · subst hp
          exact ⟨show f ≤ f + maxPut - 1 by omega,
            show f + maxPut - 1 + 1 - f ≤ maxPut by omega⟩
        · exact ihb p hp
    · rw [if_neg h]
      rw [putLargeLoop_nil]
      constructor
      · exact ⟨rfl, show f ≤ size - 1 by omega, show size - 1 + 1 = size by omega⟩
      · intro p hp
        rcases List.mem_cons.mp hp with hp | hp
        · subst hp
          exact ⟨show f ≤ size - 1 by omega, show size - 1 + 1 - f ≤ maxPut by omega⟩
        · simp at hp

theorem download_file_loop_stop (maxGet size : Int) (hmax : 0 < maxGet)
    (content : Int × Int → List Nat) (t : Int) (sink : List Nat) (h : ¬t < size) :
    download_file_loop maxGet size hmax content t sink = ([], sink) := by
  rw [download_file_loop]
  rw [dif_neg h]

theorem download_file_loop_step (maxGet size : Int) (hmax : 0 < maxGet)
    (content : Int × Int → List Nat) (t : Int) (sink : List Nat) (h : t < size) :
    download_file_loop maxGet size hmax content t sink =
      (((t, clampTo size (t + maxGet - 1)) ::
          (download_file_loop maxGet size hmax content (clampTo size (t + maxGet - 1) + 1)
            (sink ++ content (t, clampTo size (t + maxGet - 1)))).1),
        (download_file_loop maxGet size hmax content (clampTo size (t + maxGet - 1) + 1)
          (sink ++ content (t, clampTo size (t + maxGet - 1)))).2) := by
  rw [download_file_loop]
  rw [dif_pos h]

/-- Cursor invariant of the ranged download loop: from cursor `t` with
`0 ≤ t ≤ size`, the requested ranges tile `[t, size - 1]` exactly, each is
non-empty and at most `maxGet` long, and the final sink is the starting sink
followed by the response payloads in request order. -/
theorem downloadLoop_covers_aux (maxGet size : Int) (hmax : 0 < maxGet)
    (content : Int × Int → List Nat) :
    ∀ n : Nat, ∀ t : Int, (size - t).toNat ≤ n → 0 ≤ t → t ≤ size →
      ∀ sink : List Nat,
        coversFrom size t (download_file_loop maxGet size hmax content t sink).1 ∧
        (∀ p ∈ (download_file_loop maxGet size hmax content t sink).1,
          p.1 ≤ p.2 ∧ p.2 + 1 - p.1 ≤ maxGet) ∧
        (download_file_loop maxGet size hmax content t sink).2
          = sink ++ ((download_file_loop maxGet size hmax content t sink).1.map content).flatten := by
  intro n
  induction n with
  | zero =>
    intro t hn h0 hts sink
    have ht : ¬t < size := by omega
    rw [download_file_loop_stop maxGet size hmax content t sink ht]
    exact ⟨show t = size by omega, by simp, by simp⟩
  | succ n ih =>
    intro t hn h0 hts sink
    by_cases ht : t < size
    · have hcl : t ≤ clampTo size (t + maxGet - 1) ∧ clampTo size (t + maxGet - 1) < size ∧
          clampTo size (t + maxGet - 1) + 1 - t ≤ maxGet := by
        unfold clampTo; split <;> omega
      obtain ⟨hc1, hc2, hc3⟩ := hcl
      rw [download_file_loop_step maxGet size hmax content t sink ht]
      obtain ⟨ihc, ihb, ihs⟩ := ih (clampTo size (t + maxGet - 1) + 1) (by omega) (by omega)
        (by omega) (sink ++ content (t, clampTo size (t + maxGet - 1)))
      refine ⟨⟨rfl, hc1, ihc⟩, ?_, ?_⟩
      · intro p hp
        rcases List.mem_cons.mp hp with hp | hp
        · subst hp
          exact ⟨hc1, hc3⟩
        · exact ihb p hp
      · rw [ihs]
        simp
    · rw [download_file_loop_stop maxGet size hmax content t sink ht]
      exact ⟨show t = size by omega, by simp, by simp⟩

theorem put_large_file_loop_nil {S J I : Type} (maxPut size : Int) (hmax : 0 < maxPut)
    (respStatus : Nat → Nat) (respJson : Nat → J) (upd : S → J → S) (s : S) (i : Nat) :
    put_large_file_loop (I := I) maxPut size hmax respStatus respJson upd [] s i
      = ⟨[], s, true, none⟩ := by
  rw [put_large_file_loop]

theorem put_large_file_loop_cons {S J I : Type} (maxPut size : Int) (hmax : 0 < maxPut)
    (respStatus : Nat → Nat) (respJson : Nat → J) (upd : S → J → S)
    (f t : Int) (rest : List (Int × Int)) (s : S) (i : Nat) :
    put_large_file_loop (I := I) maxPut size hmax respStatus respJson upd ((f, t) :: rest) s i
      = if f + maxPut ≤ clampTo size t then
          (if respStatus i = requests_codes_accepted then
            let r := put_large_file_loop (I := I) maxPut size hmax respStatus respJson upd
              ((f + maxPut, clampTo size t) :: rest) (upd s (respJson i)) (i + 1)
            ⟨mkSubmission size (f, f + maxPut - 1) :: r.submissions, r.session, r.ok, r.returned⟩
          else ⟨[mkSubmission size (f, f + maxPut - 1)], s, false, none⟩)
        else
          (if respStatus i = requests_codes_accepted then
            let r := put_large_file_loop (I := I) maxPut size hmax respStatus respJson upd
              rest (upd s (respJson i)) (i + 1)
            ⟨mkSubmission size (f, clampTo size t) :: r.submissions, r.session, r.ok, r.returned⟩
          else ⟨[mkSubmission size (f, clampTo size t)], s, false, none⟩) := by
  rw [put_large_file_loop]
  split <;> rfl

/-- The observable behavior of the upload loop factors through the pure
range plan: the submissions issued are the planned ones truncated at the
first non-`accepted` response, the loop completes iff no truncation
happened, and the loop never produces a return value. -/
theorem put_large_file_loop_spec {S J I : Type} (maxPut size : Int) (hmax : 0 < maxPut)
    (respStatus : Nat → Nat) (respJson : Nat → J) (upd : S → J → S)
    (wl : List (Int × Int)) (s : S) (i : Nat) :
    (put_large_file_loop (I := I) maxPut size hmax respStatus respJson upd wl s i).submissions
        = (cutRun respStatus ((putLargeLoop maxPut size hmax wl).map (mkSubmission size)) i).1
      ∧ (put_large_file_loop (I := I) maxPut size hmax respStatus respJson upd wl s i).ok
        = (cutRun respStatus ((putLargeLoop maxPut size hmax wl).map (mkSubmission size)) i).2
      ∧ (put_large_file_loop (I := I) maxPut size hmax respStatus respJson upd wl s i).returned
        = none := by
  induction wl, s, i using put_large_file_loop.induct (I := I) maxPut size hmax respStatus respJson upd with
  | case1 s i =>
    rw [put_large_file_loop_nil, putLargeLoop_nil]
    simp [cutRun]
  | case2 f t rest s i t1 nc h hst ih =>
    unfold t1 nc at h ih
    rw [put_large_file_loop_cons, putLargeLoop_cons, if_pos h, if_pos h, if_pos hst]
    simp only [List.map_cons]
    rw [cutRun, if_pos hst]
    obtain ⟨h1, h2, h3⟩ := ih
    exact ⟨by simp only [h1], by simp only [h2], h3⟩
  | case3 f t rest s i t1 nc h hst =>
    unfold t1 nc at h
    rw [put_large_file_loop_cons, putLargeLoop_cons, if_pos h, if_pos h, if_neg hst]
    simp only [List.map_cons]
    rw [cutRun, if_neg hst]
    exact ⟨rfl, rfl, trivial⟩
  | case4 f t rest s i t1 nc h hst ih =>
    unfold t1 nc at h
    rw [put_large_file_loop_cons, putLargeLoop_cons, if_neg h, if_neg h, if_pos hst]
    simp only [List.map_cons]
    rw [cutRun, if_pos hst]
    obtain ⟨h1, h2, h3⟩ := ih
    exact ⟨by simp only [h1], by simp only [h2], h3⟩
  | case5 f t rest s i t1 nc h hst =>
    unfold t1 nc at h
    rw [put_large_file_loop_cons, putLargeLoop_cons, if_neg h, if_neg h, if_neg hst]
    simp only [List.map_cons]
    rw [cutRun, if_neg hst]
    exact ⟨rfl, rfl, trivial⟩

theorem cutRun_all_accepted (respStatus : Nat → Nat)
    (h : ∀ j, respStatus j = requests_codes_accepted) :
    ∀ (subs : List Submission) (i : Nat), cutRun respStatus subs i = (subs, true) := by
  intro subs
  induction subs with
  | nil => intro i; rfl
  | cons sub rest ih =>
    intro i
    rw [cutRun, if_pos (h i), ih (i + 1)]

theorem cutRun_first_failure (respStatus : Nat → Nat) :
    ∀ (subs : List Submission) (i k : Nat),
      (∀ j, j < k → respStatus (i + j) = requests_codes_accepted) →
      respStatus (i + k) ≠ requests_codes_accepted →
      k < subs.length →
      cutRun respStatus subs i = (subs.take (k + 1), false) := by
  intro subs
  induction subs with
  | nil => intro i k _ _ h3; simp at h3
  | cons sub rest ih =>
    intro i k h1 h2 h3
    match k with
    | 0 =>
      have h2' : respStatus i ≠ requests_codes_accepted := by simpa using h2
      rw [cutRun, if_neg h2']
      simp
    | k + 1 =>
      have h0 : respStatus i = requests_codes_accepted := by
        simpa using h1 0 (Nat.succ_pos k)
      have hrec := ih (i + 1) k
        (fun j hj => by
          have := h1 (j + 1) (by omega)
          rwa [show i + (j + 1) = i + 1 + j by omega] at this)
        (by rwa [show i + (k + 1) = i + 1 + k by omega] at h2)
        (by simpa using h3)
      rw [cutRun, if_pos h0, hrec]
      rfl

/-! ### The claims -/

/-- **C2.**  For every `total_size > 0` and `max_put_size_bytes > 0`, the
fragment ranges produced by the `put_large_file` worklist loop exactly
partition `[0, total_size - 1]`: the plan is non-empty, `coversFrom` states
that the ranges are contiguous from offset 0 up to `total_size - 1`
(strictly increasing, no gaps, no overlaps, and — because every range is
non-empty — no trailing zero-length fragment even when `total_size` is
divisible by `max_put_size_bytes`), and no fragment is longer than
`max_put_size_bytes`; in particular `total_size = 1500000` with
`max_put_size_bytes = 500000` yields exactly the fragments
`(0, 499999), (500000, 999999), (1000000, 1499999)`. -/
theorem put_large_file_fragments_partition (maxPut size : Int)
    (hmax : 0 < maxPut) (hsize : 0 < size) :
    (putLargeFragments maxPut size hmax ≠ [] ∧
      coversFrom size 0 (putLargeFragments maxPut size hmax) ∧
      ∀ p ∈ putLargeFragments maxPut size hmax, p.1 ≤ p.2 ∧ p.2 + 1 - p.1 ≤ maxPut) ∧
    putLargeFragments 500000 1500000 (by decide)
      = [(0, 499999), (500000, 999999), (1000000, 1499999)] := by
  constructor
  · obtain ⟨hc, hb⟩ := putLoop_covers_aux maxPut size hmax (size - 0).toNat 0
      (le_refl _) (le_refl 0) hsize
    unfold putLargeFragments
    refine ⟨?_, hc, hb⟩
    intro hnil
    rw [hnil] at hc
    have h0 : (0 : Int) = size := hc
    omega
  · simp [putLargeFragments, putLargeLoop, clampTo]

/-- Witness for `put_large_file_fragments_partition` at
`max_put_size_bytes = 2`, `total_size = 5`. -/
theorem put_large_file_fragments_partition_witness :
    (0 : Int) < 2 ∧ (0 : Int) < 5 ∧
    ((putLargeFragments 2 5 (by decide) ≠ [] ∧
      coversFrom 5 0 (putLargeFragments 2 5 (by decide)) ∧
      ∀ p ∈ putLargeFragments 2 5 (by decide), p.1 ≤ p.2 ∧ p.2 + 1 - p.1 ≤ 2) ∧
     putLargeFragments 500000 1500000 (by decide)
       = [(0, 499999), (500000, 999999), (1000000, 1499999)]) :=
  ⟨by decide, by decide, put_large_file_fragments_partition 2 5 (by decide) (by decide)⟩

/-- **C9.**  The range-split step is idempotent on bounded ranges: a worklist
entry `(f, t)` that lies inside the file (`t < size`) and whose span
`t - f + 1` is at most `max_put_size_bytes` is transmitted unchanged with no
re-insertion; and a total size exactly equal to `max_put_size_bytes` yields
exactly one fragment `(0, max_put_size_bytes - 1)` of that exact size,
never two with one zero-length. -/
theorem range_split_idempotent (maxPut size : Int) (hmax : 0 < maxPut) :
    (∀ (f t : Int) (rest : List (Int × Int)), t < size → t + 1 - f ≤ maxPut →
        putLargeLoop maxPut size hmax ((f, t) :: rest)
          = (f, t) :: putLargeLoop maxPut size hmax rest) ∧
    putLargeFragments maxPut maxPut hmax = [(0, maxPut - 1)] := by
  constructor
  · intro f t rest ht hspan
    rw [putLargeLoop_cons]
    have hct : clampTo size t = t := by unfold clampTo; rw [if_neg (by omega)]
    rw [hct, if_neg (by omega)]
  · unfold putLargeFragments
    rw [putLargeLoop_cons]
    have hct : clampTo maxPut (maxPut - 1) = maxPut - 1 := by
      unfold clampTo; rw [if_neg (by omega)]
    rw [hct, if_neg (by omega), putLargeLoop_nil]

/-- Witness for `range_split_idempotent` at `max_put_size_bytes = 2`,
`size = 5`. -/
theorem range_split_idempotent_witness :
    (0 : Int) < 2 ∧
    ((∀ (f t : Int) (rest : List (Int × Int)), t < 5 → t + 1 - f ≤ 2 →
        putLargeLoop 2 5 (by decide) ((f, t) :: rest)
          = (f, t) :: putLargeLoop 2 5 (by decide) rest) ∧
      putLargeFragments 2 2 (by decide) = [(0, 1)]) :=
  ⟨by decide, range_split_idempotent 2 5 (by decide)⟩

/-- **C4.**  The dispatcher chooses the single-shot path exactly when
`size ≤ threshold` and the chunked path exactly when `size > threshold`,
with the identical comparison for `upload_file` (against
`max_put_size_bytes`) and `download_file` (against `max_get_size_bytes`);
in particular `size = 0` is handled single-shot whenever the configured
threshold is non-negative. -/
theorem transfer_dispatch_threshold (threshold size : Int) :
    (upload_file_dispatch threshold size = .singleShot ↔ size ≤ threshold) ∧
    (upload_file_dispatch threshold size = .chunked ↔ threshold < size) ∧
    upload_file_dispatch threshold size = download_file_dispatch threshold size ∧
    (0 ≤ threshold →
      upload_file_dispatch threshold 0 = .singleShot ∧
      download_file_dispatch threshold 0 = .singleShot) := by
  refine ⟨?_, ?_, rfl, ?_⟩
  · unfold upload_file_dispatch
    split <;> rename_i h <;> simp <;> omega
  · unfold upload_file_dispatch
    split <;> rename_i h <;> simp <;> omega
  · intro h0
    refine ⟨?_, ?_⟩
    · unfold upload_file_dispatch
      rw [if_pos h0]
    · unfold download_file_dispatch
      rw [if_pos h0]

/-- Witness for `transfer_dispatch_threshold` at `threshold = 100`,
`size = 0`, with the size-zero implication discharged. -/
theorem transfer_dispatch_threshold_witness :
    ((upload_file_dispatch 100 0 = .singleShot ↔ (0 : Int) ≤ 100) ∧
      (upload_file_dispatch 100 0 = .chunked ↔ (100 : Int) < 0) ∧
      upload_file_dispatch 100 0 = download_file_dispatch 100 0 ∧
      ((0 : Int) ≤ 100 →
        upload_file_dispatch 100 0 = .singleShot ∧
        download_file_dispatch 100 0 = .singleShot)) ∧
    upload_file_dispatch 100 0 = .singleShot ∧
    download_file_dispatch 100 0 = .singleShot :=
  ⟨transfer_dispatch_threshold 100 0,
    (transfer_dispatch_threshold 100 0).2.2.2 (by decide)⟩

/-- **C10.**  In `get_item_uri`, `item_id` takes precedence over `item_path`
when both are given; when both are `None`, or when `item_path` equals the
drive path followed by `/root:`, the returned URI addresses the drive's
root item (`drive_uri + drive_path + '/root'`). -/
theorem get_item_uri_precedence_and_root (du dp i : String) (p : Option String) :
    get_item_uri du dp (some i) p = get_item_uri du dp (some i) none ∧
    get_item_uri du dp (some i) p = du ++ (dp ++ "/items/" ++ i) ∧
    get_item_uri du dp none none = du ++ (dp ++ "/root") ∧
    get_item_uri du dp none (some (dp ++ "/root:")) = du ++ (dp ++ "/root") := by
  refine ⟨rfl, rfl, rfl, ?_⟩
  simp [get_item_uri]

/-- **C8.**  Calls with missing required addressing are rejected before any
network call: `update_item` raises `ValueError` when both `item_id` and
`item_path` are `None`, and also when no field to change is given;
`copy_item` raises `ValueError` when `dest_reference` is not an
`ItemReference` or when both source `item_id` and `item_path` are `None`.
`Except.error` embeds the raised `ValueError`; an `HttpCall` value is built
only on the non-error path, so an error result means no HTTP request was
issued. -/
theorem invalid_addressing_rejected (du dp : String)
    (nn nd : Option String) (npr : Option ItemReference)
    (nfsi : Option FileSystemInfoFacet) (i p : String)
    (iid ipath cnn : Option String) (r : ItemReference) :
    update_item du dp none none nn nd npr nfsi
        = .error "Root is immutable. A specific item is required." ∧
    update_item du dp (some i) none none none none none
        = .error "Nothing is to change." ∧
    update_item du dp none (some p) none none none none
        = .error "Nothing is to change." ∧
    copy_item du dp .notAnItemReference iid ipath cnn
        = .error "Destination should be an ItemReference object." ∧
    copy_item du dp (.ref r) none none cnn
        = .error "Source of copy must be specified." :=
  ⟨rfl, rfl, rfl, rfl, rfl⟩

/-- **C3.**  For every `total_size ≥ 0` and `max_get_size_bytes > 0`, the
byte ranges requested by the `download_file` chunked loop exactly partition
`[0, total_size - 1]` in strictly increasing order with no gaps or overlaps
(`coversFrom` from cursor 0), each range spans at most `max_get_size_bytes`
bytes, and the response payloads are appended to the sink in exactly that
request order: the final sink is the initial sink followed by the payloads
of the requested ranges, concatenated in order, so the sink needs only
sequential appends. -/
theorem download_file_ranges_partition (maxGet size : Int) (hmax : 0 < maxGet)
    (hsize : 0 ≤ size) (content : Int × Int → List Nat) (sink0 : List Nat) :
    coversFrom size 0 (download_file_loop maxGet size hmax content 0 sink0).1 ∧
    (∀ p ∈ (download_file_loop maxGet size hmax content 0 sink0).1,
      p.1 ≤ p.2 ∧ p.2 + 1 - p.1 ≤ maxGet) ∧
    (download_file_loop maxGet size hmax content 0 sink0).2
      = sink0 ++ ((download_file_loop maxGet size hmax content 0 sink0).1.map content).flatten :=
  downloadLoop_covers_aux maxGet size hmax content (size - 0).toNat 0
    (le_refl _) (le_refl 0) hsize sink0

/-- Witness for `download_file_ranges_partition` at `max_get_size_bytes = 2`,
`total_size = 5`, with a concrete payload oracle and an empty initial sink. -/
theorem download_file_ranges_partition_witness :
    (0 : Int) < 2 ∧ (0 : Int) ≤ 5 ∧
    (coversFrom 5 0 (download_file_loop 2 5 (by decide) (fun p => [p.1.toNat]) 0 []).1 ∧
     (∀ p ∈ (download_file_loop 2 5 (by decide) (fun p => [p.1.toNat]) 0 []).1,
        p.1 ≤ p.2 ∧ p.2 + 1 - p.1 ≤ 2) ∧
     (download_file_loop 2 5 (by decide) (fun p => [p.1.toNat]) 0 []).2
       = [] ++ ((download_file_loop 2 5 (by decide) (fun p => [p.1.toNat]) 0 []).1.map
            (fun p => [p.1.toNat])).flatten) :=
  ⟨by decide, by decide,
    download_file_ranges_partition 2 5 (by decide) (by decide) (fun p => [p.1.toNat]) []⟩

/-- **C6.**  If the `k`-th fragment PUT of a chunked upload fails its
expected-status check (the transport raises on any status other than
`accepted`) while all earlier fragments succeeded, the transfer aborts
immediately: the failure propagates to the caller (`ok = false`) and the
submissions issued are exactly the first `k + 1` planned fragments — the
failing one is the last ever submitted, no later fragment is sent, and no
fragment is retried. -/
theorem put_large_file_aborts_on_status_mismatch {S J I : Type}
    (maxPut size : Int) (hmax : 0 < maxPut)
    (respStatus : Nat → Nat) (respJson : Nat → J) (upd : S → J → S) (s0 : S) (k : Nat)
    (hok : ∀ j, j < k → respStatus j = requests_codes_accepted)
    (hfail : respStatus k ≠ requests_codes_accepted)
    (hk : k < (putLargeFragments maxPut size hmax).length) :
    (put_large_file_run (I := I) maxPut size hmax respStatus respJson upd s0).ok = false ∧
    (put_large_file_run (I := I) maxPut size hmax respStatus respJson upd s0).submissions
      = (put_plan_submissions maxPut size hmax).take (k + 1) := by
  obtain ⟨h1, h2, _⟩ := put_large_file_loop_spec (I := I) maxPut size hmax
    respStatus respJson upd [(0, size - 1)] s0 0
  have hcut := cutRun_first_failure respStatus
    ((putLargeLoop maxPut size hmax [(0, size - 1)]).map (mkSubmission size)) 0 k
    (fun j hj => by simpa using hok j hj)
    (by simpa using hfail)
    (by simpa [putLargeFragments] using hk)
  unfold put_large_file_run put_plan_submissions putLargeFragments
  rw [h1, h2, hcut]
  exact ⟨rfl, rfl⟩

/-- Witness for `put_large_file_aborts_on_status_mismatch`:
`max_put_size_bytes = 1`, `total_size = 3`, the second fragment PUT
(index `k = 1`) answers 500 while the first answered 202. -/
theorem put_large_file_aborts_on_status_mismatch_witness :
    (0 : Int) < 1 ∧
    (∀ j, j < 1 → (if j = 0 then 202 else 500) = requests_codes_accepted) ∧
    (if 1 = 0 then 202 else 500) ≠ requests_codes_accepted ∧
    1 < (putLargeFragments 1 3 (by decide)).length ∧
    ((put_large_file_run (S := Unit) (J := Unit) (I := Unit) 1 3 (by decide)
        (fun j => if j = 0 then 202 else 500) (fun _ => ()) (fun _ _ => ()) ()).ok = false ∧
      (put_large_file_run (S := Unit) (J := Unit) (I := Unit) 1 3 (by decide)
        (fun j => if j = 0 then 202 else 500) (fun _ => ()) (fun _ _ => ()) ()).submissions
        = (put_plan_submissions 1 3 (by decide)).take (1 + 1)) :=
  ⟨by decide,
    fun j hj => by
      have hj0 : j = 0 := by omega
      simp [hj0, requests_codes_accepted],
    by decide,
    by simp [putLargeFragments, putLargeLoop, clampTo],
    put_large_file_aborts_on_status_mismatch 1 3 (by decide)
      (fun j => if j = 0 then 202 else 500) (fun _ => ()) (fun _ _ => ()) () 1
      (fun j hj => by
        have hj0 : j = 0 := by omega
        simp [hj0, requests_codes_accepted])
      (by decide)
      (by simp [putLargeFragments, putLargeLoop, clampTo])⟩

/-- **C7.**  The fragment ranges (indeed, the whole submission sequence:
ranges, `Content-Range` headers and expected statuses) of a chunked upload
are a function of only the total size and `max_put_size_bytes`: two runs
that agree on the response statuses but receive arbitrarily different
session JSON bodies (different initial sessions from session initiation,
different per-fragment response bodies, even different session/JSON types
and update functions) issue identical submissions — the session update is
read-only bookkeeping, never loop-control input. -/
theorem fragment_ranges_independent_of_session {S1 J1 I1 S2 J2 I2 : Type}
    (maxPut size : Int) (hmax : 0 < maxPut) (respStatus : Nat → Nat)
    (respJson1 : Nat → J1) (upd1 : S1 → J1 → S1) (s1 : S1)
    (respJson2 : Nat → J2) (upd2 : S2 → J2 → S2) (s2 : S2) :
    (put_large_file_run (I := I1) maxPut size hmax respStatus respJson1 upd1 s1).submissions
      = (put_large_file_run (I := I2) maxPut size hmax respStatus respJson2 upd2 s2).submissions := by
  obtain ⟨h1, _, _⟩ := put_large_file_loop_spec (I := I1) maxPut size hmax
    respStatus respJson1 upd1 [(0, size - 1)] s1 0
  obtain ⟨h2, _, _⟩ := put_large_file_loop_spec (I := I2) maxPut size hmax
    respStatus respJson2 upd2 [(0, size - 1)] s2 0
  unfold put_large_file_run
  rw [h1, h2]

/-- Witness for `fragment_ranges_independent_of_session`: two runs of a
2-fragment upload whose session-initiation body, per-fragment JSON bodies,
session type and update function all differ, with equal statuses. -/
theorem fragment_ranges_independent_of_session_witness :
    (0 : Int) < 2 ∧
    (put_large_file_run (S := Nat) (J := Nat) (I := Unit) 2 3 (by decide)
        (fun _ => 202) (fun i => i + 7) (fun s j => s + j) 5).submissions
      = (put_large_file_run (S := Unit) (J := Unit) (I := Unit) 2 3 (by decide)
          (fun _ => 202) (fun _ => ()) (fun _ _ => ()) ()).submissions :=
  ⟨by decide,
    fragment_ranges_independent_of_session 2 3 (by decide) (fun _ => 202)
      (fun i => i + 7) (fun s j => s + j) 5 (fun _ => ()) (fun _ _ => ()) ()⟩

/-- **C1 (code bug).**  Evaluation of `put_large_file` on a 3-fragment
upload (`total_size = 1500000`, `max_put_size_bytes = 500000`):
every fragment PUT — the final one included — is issued with
`ok_status_code=requests.codes.accepted` (202), not `created` (201), and on
the all-accepted run the function returns `None` (its body has no `return`
statement), not the item metadata its docstring promises; against a server
that answers the final fragment with `201 Created` (as the OneDrive API
documented in the function's docstring does) the transport check raises and
the call fails. -/
theorem put_large_file_returns_none_and_expects_accepted :
    (put_large_file_run (S := Unit) (J := Unit) (I := Unit) 500000 1500000 (by decide)
        (fun _ => 202) (fun _ => ()) (fun _ _ => ()) ()).returned = none ∧
    (put_large_file_run (S := Unit) (J := Unit) (I := Unit) 500000 1500000 (by decide)
        (fun _ => 202) (fun _ => ()) (fun _ _ => ()) ()).ok = true ∧
    (put_large_file_run (S := Unit) (J := Unit) (I := Unit) 500000 1500000 (by decide)
        (fun _ => 202) (fun _ => ()) (fun _ _ => ()) ()).submissions.map
        (fun sub => sub.expectedStatus)
      = [requests_codes_accepted, requests_codes_accepted, requests_codes_accepted] ∧
    requests_codes_accepted ≠ requests_codes_created ∧
    (put_large_file_run (S := Unit) (J := Unit) (I := Unit) 500000 1500000 (by decide)
        (fun i => if i < 2 then 202 else 201) (fun _ => ()) (fun _ _ => ()) ()).ok = false := by
  refine ⟨?_, ?_, ?_, by decide, ?_⟩ <;>
    simp [put_large_file_run, put_large_file_loop, clampTo, mkSubmission,
      requests_codes_accepted, requests_codes_created]

/-- **C5 (code bug).**  Evaluation of the `Content-Range` headers actually
sent on the 3-fragment upload of `total_size = 1500000` with
`max_put_size_bytes = 500000`: the header value is
`"<from>-<to>/<total_size>"` with no `bytes ` unit, so the first fragment
carries `"0-499999/1500000"`, not `"bytes 0-499999/1500000"` as the
HTTP `Content-Range` grammar and the OneDrive API reference linked in the
function's docstring require. -/
theorem content_range_header_lacks_bytes_unit :
    (put_large_file_run (S := Unit) (J := Unit) (I := Unit) 500000 1500000 (by decide)
        (fun _ => 202) (fun _ => ()) (fun _ _ => ()) ()).submissions.map
        (fun sub => sub.contentRange)
      = ["0-499999/1500000", "500000-999999/1500000", "1000000-1499999/1500000"] ∧
    (put_large_file_run (S := Unit) (J := Unit) (I := Unit) 500000 1500000 (by decide)
        (fun _ => 202) (fun _ => ()) (fun _ _ => ()) ()).submissions.map
        (fun sub => sub.contentRange)
      ≠ ["bytes 0-499999/1500000", "bytes 500000-999999/1500000",
          "bytes 1000000-1499999/1500000"] := by
  have heval : (put_large_file_run (S := Unit) (J := Unit) (I := Unit) 500000 1500000
      (by decide) (fun _ => 202) (fun _ => ()) (fun _ _ => ()) ()).submissions.map
      (fun sub => sub.contentRange)
      = ["0-499999/1500000", "500000-999999/1500000", "1000000-1499999/1500000"] := by
    simp [put_large_file_run, put_large_file_loop, clampTo, mkSubmission,
      contentRangeValue, requests_codes_accepted]
    decide
  refine ⟨heval, ?_⟩
  rw [heval]
  decide

end OnedriveD
